import Mathlib

/-!
Shallow embedding of the file-storage / extraction core of the repository
(`src-tauri/src/file_storage.rs` and `src-tauri/src/extract.rs`) together with
proofs about the claims of its specification.

Modelling conventions:
* A Rust `String`/`&str` is a Lean `String` (a list of unicode scalar values);
  byte-indexed operations (`str::len`, `&s[..n]`) are modelled through the
  UTF-8 byte length `byteLen` and the byte-prefix operation `byteTake`, which
  returns `none` exactly when the Rust slice would panic (cut not on a char
  boundary / out of range).
* Raw file bytes are `List Nat` (each entry < 256); `fs::read_to_string` is
  modelled by a full UTF-8 decoder `utf8Decode` that fails exactly when Rust's
  would.
* The external `pdf_extract` crate is a parameter (an oracle function/result),
  since its code is not part of the repository.
* Fallible/panicking stateful operations return `RustResult`; the persistent
  index file is an `IndexState` (`none` = the index file does not exist) that
  every operation threads through explicitly, mirroring the read-modify-write
  structure of the Rust code.  I/O primitives themselves (file copy, write)
  are assumed to succeed; what is modelled is the program logic above them.
* The chunker's `while` loop is given explicit fuel: `none` means the loop has
  not exited within the given fuel.  Statements quantifying over all fuel
  express (non-)termination.
-/

/-! ### Rust string primitives -/

/-- Unicode `White_Space` test, as used by Rust's `char::is_whitespace`
(`str::trim`, `str::split_whitespace`): U+0009..U+000D, U+0020, U+0085,
U+00A0, U+1680, U+2000..U+200A, U+2028, U+2029, U+202F, U+205F, U+3000. -/
def isWs (c : Char) : Bool :=
  decide (c.toNat = 32 ∨ (9 ≤ c.toNat ∧ c.toNat ≤ 13) ∨ c.toNat = 133 ∨
    c.toNat = 160 ∨ c.toNat = 5760 ∨ (8192 ≤ c.toNat ∧ c.toNat ≤ 8202) ∨
    c.toNat = 8232 ∨ c.toNat = 8233 ∨ c.toNat = 8239 ∨ c.toNat = 8287 ∨
    c.toNat = 12288)

/-- Number of bytes of the UTF-8 encoding of a scalar value. -/
def utf8Len (c : Char) : Nat :=
  if c.toNat < 128 then 1
  else if c.toNat < 2048 then 2
  else if c.toNat < 65536 then 3
  else 4

/-- UTF-8 byte length of a list of chars (Rust `str::len`). -/
def byteLenL : List Char → Nat
  | [] => 0
  | c :: cs => utf8Len c + byteLenL cs

/-- UTF-8 byte length of a string (Rust `str::len`). -/
def byteLen (s : String) : Nat := byteLenL s.data

/-- Byte-indexed slicing `&s[..n]` on a list of chars: `none` when Rust would
panic (the index is out of range or not on a char boundary). -/
def byteTakeL : List Char → Nat → Option (List Char)
  | _, 0 => some []
  | [], _ + 1 => none
  | c :: cs, n + 1 =>
    if utf8Len c ≤ n + 1 then (byteTakeL cs (n + 1 - utf8Len c)).map (c :: ·)
    else none

/-- Byte-indexed slicing `&s[..n]` (Rust panics become `none`). -/
def byteTake (s : String) (n : Nat) : Option String :=
  (byteTakeL s.data n).map (⟨·⟩)

/-- Rust `str::trim` on a list of chars. -/
def trimL (l : List Char) : List Char :=
  ((l.dropWhile isWs).reverse.dropWhile isWs).reverse

/-- Rust `str::trim`. -/
def rustTrim (s : String) : String := ⟨trimL s.data⟩

/-- Worker for `split_whitespace`: `cur` is the current word, reversed. -/
def splitWsAux : List Char → List Char → List String
  | [], cur => if cur.isEmpty then [] else [⟨cur.reverse⟩]
  | c :: cs, cur =>
    if isWs c then
      if cur.isEmpty then splitWsAux cs [] else ⟨cur.reverse⟩ :: splitWsAux cs []
    else splitWsAux cs (c :: cur)

/-- Rust `str::split_whitespace` (collected into a vector). -/
def split_whitespace (s : String) : List String := splitWsAux s.data []

/-- Rust `[&str]::join(sep)`. -/
def joinSep (sep : String) : List String → String
  | [] => ""
  | [x] => x
  | x :: y :: rest => x ++ sep ++ joinSep sep (y :: rest)

/-- Split a char list at `'\n'` (keeping empty segments). -/
def splitNlAux : List Char → List Char → List (List Char)
  | [], cur => [cur.reverse]
  | c :: cs, cur =>
    if c = '\n' then cur.reverse :: splitNlAux cs [] else splitNlAux cs (c :: cur)

/-- Strip one trailing `'\r'` (Rust `str::lines` does this per line). -/
def stripCr (l : List Char) : List Char :=
  if l.getLast? = some '\r' then l.dropLast else l

/-- Rust `str::lines` (collected into a vector). -/
def rustLines (s : String) : List String :=
  if s.data.isEmpty then []
  else
    let parts := splitNlAux s.data []
    let parts := if s.data.getLast? = some '\n' then parts.dropLast else parts
    parts.map (fun l => ⟨stripCr l⟩)

/-- Continuation byte test for UTF-8 decoding. -/
def isCont (b : Nat) : Bool := 128 ≤ b && b < 192

/-- Full UTF-8 decoder: the semantics of Rust's `String::from_utf8` /
`fs::read_to_string` validity check (rejects overlong forms, surrogates and
out-of-range values exactly as Rust does). -/
def utf8Decode : List Nat → Option (List Char)
  | [] => some []
  | b :: rest =>
    if b < 128 then (utf8Decode rest).map (Char.ofNat b :: ·)
    else
      match rest with
      | [] => none
      | b2 :: rest2 =>
        if 194 ≤ b ∧ b ≤ 223 then
          if isCont b2 then
            (utf8Decode rest2).map (Char.ofNat ((b - 192) * 64 + (b2 - 128)) :: ·)
          else none
        else
          match rest2 with
          | [] => none
          | b3 :: rest3 =>
            if 224 ≤ b ∧ b ≤ 239 then
              if isCont b2 ∧ isCont b3 ∧ (b = 224 → 160 ≤ b2) ∧ (b = 237 → b2 ≤ 159) then
                (utf8Decode rest3).map
                  (Char.ofNat ((b - 224) * 4096 + (b2 - 128) * 64 + (b3 - 128)) :: ·)
              else none
            else
              match rest3 with
              | [] => none
              | b4 :: rest4 =>
                if 240 ≤ b ∧ b ≤ 244 then
                  if isCont b2 ∧ isCont b3 ∧ isCont b4 ∧
                      (b = 240 → 144 ≤ b2) ∧ (b = 244 → b2 ≤ 143) then
                    (utf8Decode rest4).map
                      (Char.ofNat ((b - 240) * 262144 + (b2 - 128) * 4096 +
                        (b3 - 128) * 64 + (b4 - 128)) :: ·)
                  else none
                else none

/-- `fs::read_to_string` seen as a pure function of the file's bytes. -/
def utf8DecodeS (bytes : List Nat) : Option String := (utf8Decode bytes).map (⟨·⟩)

/-- Rust `str::to_lowercase`, for the ASCII extensions it is applied to. -/
def rustToLowercase (s : String) : String := ⟨s.data.map Char.toLower⟩

/-- Rust `Iterator::position` on a list. -/
def listPosition {α : Type} (p : α → Bool) : List α → Option Nat
  | [] => none
  | x :: xs => if p x then some 0 else (listPosition p xs).map (· + 1)

/-! ### Result type, records and index state -/

/-- Outcome of a Rust call: normal return, `Err`, or a panic. -/
inductive RustResult (α : Type) where
  | panicked : RustResult α
  | error : String → RustResult α
  | ok : α → RustResult α
deriving DecidableEq

instance exceptDecEq {e a : Type} [DecidableEq e] [DecidableEq a] :
    DecidableEq (Except e a) := fun x y =>
  match x, y with
  | .ok v, .ok w =>
    if h : v = w then isTrue (by rw [h])
    else isFalse (by intro he; injection he; contradiction)
  | .error v, .error w =>
    if h : v = w then isTrue (by rw [h])
    else isFalse (by intro he; injection he; contradiction)
  | .ok _, .error _ => isFalse (by intro he; cases he)
  | .error _, .ok _ => isFalse (by intro he; cases he)

/-- `FileInfo` record of `file_storage.rs`. -/
structure FileInfo where
  id : String
  name : String
  file_type : String
  size : Nat
  upload_date : String
  content : String
  is_context_enabled : Bool
  summary : String
  conversation_id : Option String
deriving DecidableEq

/-- Placeholder record used only as a `getD` default (the Rust code indexes
with an index it just obtained from `position`, which is always in range). -/
def noFile : FileInfo := ⟨"", "", "", 0, "", "", true, "", none⟩

/-- The persisted `uploads/index.json`: `none` when the file does not exist. -/
abbrev IndexState := Option (List FileInfo)

/-- The records an index state holds (empty when the file does not exist). -/
def idxList : IndexState → List FileInfo
  | none => []
  | some files => files

/-! ### `file_storage.rs` -/

namespace FileStorage

/-- The last path component (after the final `'/'`), as `Path::file_name`. -/
def fileNameOf (p : String) : String := ⟨(p.data.reverse.takeWhile (· ≠ '/')).reverse⟩

/-- The suffix after the last `'.'` of a char list. -/
def afterLastDot (l : List Char) : List Char := (l.reverse.takeWhile (· ≠ '.')).reverse

/-- `Path::extension`: the part of the file name after its last dot; `none`
when there is no dot, or when the only dot is the leading one (dotfiles). -/
def extensionOf (p : String) : Option String :=
  match (fileNameOf p).data with
  | [] => none
  | _ :: rest => if rest.contains '.' then some ⟨afterLastDot rest⟩ else none

/-- `FileStorage::get_file_type`: lowercased extension, `"unknown"` if none. -/
def get_file_type (filename : String) : String :=
  match extensionOf filename with
  | some e => rustToLowercase e
  | none => "unknown"

/-- `FileStorage::extract_pdf_text` (file_storage.rs:149-171), as a function of
the result of the external `pdf_extract::extract_text_from_mem` call: on
success the text is cleaned line by line; on failure the error is wrapped and
returned as a hard `Err`. -/
def extract_pdf_text (memRes : Except String String) : Except String String :=
  match memRes with
  | .ok text =>
    .ok (joinSep "\n" (((rustLines text).map rustTrim).filter (fun l => !(l == ""))))
  | .error e => .error ("Failed to extract text from PDF: " ++ e)

/-- `FileStorage::extract_text_content` (file_storage.rs:125-146), reading the
just-written blob `data`; `pdfO` is the external `pdf_extract` crate. -/
def extract_text_content (pdfO : List Nat → Except String String)
    (data : List Nat) (file_type : String) : Except String String :=
  if file_type ∈ ["txt", "md", "json", "csv", "xml", "yaml", "log"] then
    match utf8DecodeS data with
    | some s => .ok s
    | none => .error "stream did not contain valid UTF-8"
  else if file_type ∈ ["py", "js", "ts", "java", "cpp", "c", "go", "rs", "php",
      "html", "css", "sql"] then
    match utf8DecodeS data with
    | some s => .ok s
    | none => .error "stream did not contain valid UTF-8"
  else if file_type = "pdf" then extract_pdf_text (pdfO data)
  else .ok ""

/-- `FileStorage::summarize` (file_storage.rs:677-691).  `none` models the
panic of `&snippet[..400]` when byte 400 is not a char boundary. -/
def summarize (name file_type : String) (size : Nat) (content : String) :
    Option String :=
  let snippet := rustTrim content
  match (if byteLen snippet > 400 then byteTake snippet 400 else some snippet) with
  | none => none
  | some sn =>
    let replaced : String :=
      ⟨sn.data.map (fun c => if c = '\r' then ' ' else if c = '\n' then ' ' else c)⟩
    let cleaned := joinSep " " (split_whitespace replaced)
    some (name ++ " [" ++ file_type ++ " | " ++ Nat.repr size ++ " bytes] — " ++ cleaned)

/-- `f.summary.trim().is_empty()` — the backfill trigger in `list_files`. -/
def blankB (s : String) : Bool := rustTrim s == ""

/-- The backfill loop of `FileStorage::list_files` (file_storage.rs:206-213):
returns the updated records and the `changed` flag; `none` models a panic
inside `summarize` (nothing is persisted in that case). -/
def backfillList : List FileInfo → Option (List FileInfo × Bool)
  | [] => some ([], false)
  | f :: rest =>
    if blankB f.summary then
      match summarize f.name f.file_type f.size f.content with
      | none => none
      | some s =>
        match backfillList rest with
        | none => none
        | some (rest', _) => some ({ f with summary := s } :: rest', true)
    else
      match backfillList rest with
      | none => none
      | some (rest', ch) => some (f :: rest', ch)

/-- `FileStorage::list_files` (file_storage.rs:197-219): missing index file
yields an empty list without creating the file; otherwise the records are
read, blank summaries are backfilled and, if anything changed, the whole
index is rewritten before returning. -/
def list_files (st : IndexState) : RustResult (List FileInfo) × IndexState :=
  match st with
  | none => (.ok [], none)
  | some files =>
    match backfillList files with
    | none => (.panicked, some files)
    | some (files', changed) =>
      (.ok files', if changed then some files' else some files)

/-- `FileStorage::save_file_to_index` (file_storage.rs:173-188): re-read the
index, replace the record with the same id or append, rewrite the index. -/
def save_file_to_index (st : IndexState) (new_file : FileInfo) :
    RustResult Unit × IndexState :=
  match list_files st with
  | (.ok files, _) =>
    let files' :=
      match listPosition (fun f => f.id == new_file.id) files with
      | some i => files.set i new_file
      | none => files ++ [new_file]
    (.ok (), some files')
  | (.error e, st1) => (.error e, st1)
  | (.panicked, st1) => (.panicked, st1)

/-- `FileStorage::upload_file` (file_storage.rs:78-115).  `file_id` and `now`
stand for the generated UUID and timestamp; the blob write succeeds and
`extract_text_content` reads back exactly `file_data`.  Note the `?` on the
extraction call: an extraction error aborts the upload. -/
def upload_file (pdfO : List Nat → Except String String) (file_data : List Nat)
    (filename file_id now : String) (st : IndexState) :
    RustResult FileInfo × IndexState :=
  let file_type := get_file_type filename
  let file_size := file_data.length
  match extract_text_content pdfO file_data file_type with
  | .error e => (.error e, st)
  | .ok content =>
    match summarize filename file_type file_size content with
    | none => (.panicked, st)
    | some sum =>
      let file_info : FileInfo :=
        ⟨file_id, filename, file_type, file_size, now, content, true, sum, none⟩
      match save_file_to_index st file_info with
      | (.ok _, st') => (.ok file_info, st')
      | (.error e, st') => (.error e, st')
      | (.panicked, st') => (.panicked, st')

/-- `FileStorage::delete_file` (file_storage.rs:221-252): blob removal is
best-effort; an id absent from the index is a hard error — but only after
`list_files` has possibly persisted its backfill. -/
def delete_file (st : IndexState) (file_id : String) :
    RustResult Unit × IndexState :=
  match list_files st with
  | (.ok files, st1) =>
    match listPosition (fun f => f.id == file_id) files with
    | some i => (.ok (), some (files.eraseIdx i))
    | none => (.error ("File not found: " ++ file_id), st1)
  | (.error e, st1) => (.error e, st1)
  | (.panicked, st1) => (.panicked, st1)

/-- `FileStorage::toggle_context` (file_storage.rs:342-353). -/
def toggle_context (st : IndexState) (file_id : String) :
    RustResult FileInfo × IndexState :=
  match list_files st with
  | (.ok files, st1) =>
    match listPosition (fun f => f.id == file_id) files with
    | some i =>
      let f := files.getD i noFile
      let f' := { f with is_context_enabled := !f.is_context_enabled }
      (.ok f', some (files.set i f'))
    | none => (.error ("File not found: " ++ file_id), st1)
  | (.error e, st1) => (.error e, st1)
  | (.panicked, st1) => (.panicked, st1)

/-- The truncation applied when persisting extracted content in
`store_file_from_path_robust` (the same expression appears inline in the pdf,
text and code branches, file_storage.rs:398-404, 424-430, 455-461):
content over 10000 bytes is cut with `&text[..10000]` (`none` = panic when
byte 10000 is not a char boundary) and a marker is appended. -/
def truncate_for_storage (text : String) : Option String :=
  if byteLen text > 10000 then
    (byteTake text 10000).map
      (fun p => p ++ "... [Truncated - " ++ Nat.repr (byteLen text) ++ " characters total]")
  else some text

/-- `FileStorage::store_file_from_path_robust` (file_storage.rs:369-539).
`bytes` are the bytes of the copied source file; `pdfO` is the external
`pdf_extract` crate.  Extraction failure never aborts: it degrades to empty
content plus a diagnostic summary.  The index append uses
`list_files().unwrap_or_else(|_| vec![])` and then pushes. -/
def store_file_from_path_robust (pdfO : List Nat → Except String String)
    (bytes : List Nat) (filename file_type file_id now : String)
    (st : IndexState) : RustResult FileInfo × IndexState :=
  let file_size := bytes.length
  let cs : Option (String × String) :=
    if file_type = "pdf" then
      match extract_pdf_text (pdfO bytes) with
      | .ok text =>
        (truncate_for_storage text).map (fun ct =>
          (ct, "PDF document: " ++ filename ++ " [" ++ Nat.repr file_size ++
            " bytes] - Text extracted: " ++ Nat.repr (byteLen ct) ++ " chars"))
      | .error e =>
        some ("", "PDF document: " ++ filename ++ " [" ++ Nat.repr file_size ++
          " bytes] - Content extraction failed: " ++ e)
    else if file_type ∈ ["txt", "md", "json", "csv", "xml", "yaml", "yml", "log", "rtf"] then
      match utf8DecodeS bytes with
      | some text =>
        (truncate_for_storage text).map (fun ct =>
          (ct, "Text document: " ++ filename ++ " [" ++ Nat.repr file_size ++
            " bytes] - Content extracted: " ++ Nat.repr (byteLen ct) ++ " chars"))
      | none =>
        some ("", "Text document: " ++ filename ++ " [" ++ Nat.repr file_size ++
          " bytes] - Content extraction failed: stream did not contain valid UTF-8")
    else if file_type ∈ ["py", "js", "ts", "jsx", "tsx", "java", "cpp", "c", "cc",
        "cxx", "h", "hpp", "go", "rs", "php", "rb", "swift", "kt", "scala", "html",
        "htm", "css", "scss", "sass", "less", "sql", "sh", "bash", "zsh", "fish",
        "ps1", "bat", "cmd"] then
      match utf8DecodeS bytes with
      | some text =>
        (truncate_for_storage text).map (fun ct =>
          (ct, "Code file: " ++ filename ++ " [" ++ Nat.repr file_size ++
            " bytes] - Content extracted: " ++ Nat.repr (byteLen ct) ++ " chars"))
      | none =>
        some ("", "Code file: " ++ filename ++ " [" ++ Nat.repr file_size ++
          " bytes] - Content extraction failed: stream did not contain valid UTF-8")
    else if file_type ∈ ["png", "jpg", "jpeg", "gif", "bmp", "svg", "webp"] then
      some ("", "Image file: " ++ filename ++ " [" ++ Nat.repr file_size ++
        " bytes] - Binary content not extractable")
    else if file_type ∈ ["mp4", "avi", "mov", "wmv", "flv", "webm", "mkv"] then
      some ("", "Video file: " ++ filename ++ " [" ++ Nat.repr file_size ++
        " bytes] - Binary content not extractable")
    else if file_type ∈ ["mp3", "wav", "flac", "aac", "ogg"] then
      some ("", "Audio file: " ++ filename ++ " [" ++ Nat.repr file_size ++
        " bytes] - Binary content not extractable")
    else if file_type ∈ ["zip", "rar", "7z", "tar", "gz"] then
      some ("", "Archive file: " ++ filename ++ " [" ++ Nat.repr file_size ++
        " bytes] - Binary content not extractable")
    else
      some ("", "Unknown file type: " ++ filename ++ " [" ++ Nat.repr file_size ++
        " bytes] - Binary content not extractable")
  match cs with
  | none => (.panicked, st)
  | some (content, sum) =>
    let file_info : FileInfo :=
      ⟨file_id, filename, file_type, file_size, now, content, true, sum, none⟩
    match list_files st with
    | (.ok files, _) => (.ok file_info, some (files ++ [file_info]))
    | (.error _, _) => (.ok file_info, some [file_info])
    | (.panicked, st1) => (.panicked, st1)

/-- The `while` loop of `FileStorage::create_smart_chunks`
(file_storage.rs:644-670), with explicit fuel (`none` = the loop has not
exited within `fuel` iterations).  `CHUNK_SIZE = 1500`, `OVERLAP_SIZE = 200`;
`start = end.saturating_sub(OVERLAP_SIZE)` is Nat subtraction, and the
`if start == end break` guard is checked after the push. -/
def chunk_loop (fuel : Nat) (words : List String) (filename : String)
    (start chunk_num : Nat) (acc : List String) : Option (List String) :=
  match fuel with
  | 0 => none
  | fuel + 1 =>
    if start < words.length then
      let e := Nat.min (start + 1500) words.length
      let chunk_content := joinSep " " ((words.drop start).take (e - start))
      let title :=
        if 1500 < words.length then
          "Document: " ++ filename ++ " (Part " ++ Nat.repr chunk_num ++ "/" ++
            Nat.repr ((words.length + 1500 - 200 - 1) / (1500 - 200)) ++ ")"
        else "Document: " ++ filename
      let acc' := acc ++ [title ++ "\nContent:\n" ++ chunk_content]
      let start' := e - 200
      if start' = e then some acc'
      else chunk_loop fuel words filename start' (chunk_num + 1) acc'
    else some acc

/-- `FileStorage::create_smart_chunks` (file_storage.rs:629-673), with fuel
for its loop. -/
def create_smart_chunks_fuel (fuel : Nat) (filename content : String) :
    Option (List String) :=
  let words := split_whitespace content
  if words.length ≤ 1500 then
    some ["Document: " ++ filename ++ "\nContent:\n" ++ content]
  else chunk_loop fuel words filename 0 1 []

/-- The branch condition of `get_optimized_context` (file_storage.rs:602)
deciding whether a record's freshly extracted content is handed to the
chunker: `content.len() > 2000`, a BYTE length. -/
def uses_chunker (content : String) : Bool := decide (2000 < byteLen content)

/-- The per-record body of the `get_optimized_context` loop
(file_storage.rs:592-622), as a function of the record's name and of the
result of the on-demand `extract_file_content` call: empty content is
skipped, content over 2000 bytes goes to the chunker, smaller content becomes
one block, and an extraction error becomes a diagnostic block. -/
def process_enabled_file (fuel : Nat) (name : String)
    (res : Except String String) : Option (List String) :=
  match res with
  | .ok content =>
    if content == "" then some []
    else if uses_chunker content then create_smart_chunks_fuel fuel name content
    else some ["Document: " ++ name ++ "\nContent:\n" ++ content]
  | .error e => some ["Document: " ++ name ++ " [Content extraction failed: " ++ e ++ "]"]

end FileStorage

/-! ### `extract.rs` -/

namespace Extract

/-- `extract_pdf_text` of extract.rs:59-112.  `pathStr` is `path.display()`,
`name` the file name, `fileExists` the `path.exists()` probe; `memRes` and
`pathRes` are the results of the two external `pdf_extract` strategies
(`extract_text_from_mem`, then path-based `extract_text`).  The function
never returns `Err`: every failure is folded into a placeholder string. -/
def extract_pdf_text (pathStr name : String) (fileExists : Bool)
    (memRes pathRes : Except String String) : Except String String :=
  if !fileExists then .ok ("[PDF file not found: " ++ pathStr ++ "]")
  else
    match memRes with
    | .ok t =>
      if !(rustTrim t == "") then .ok t
      else .ok ("[PDF appears to contain no selectable text — likely scanned images: " ++ name ++ "]")
    | .error _ =>
      match pathRes with
      | .ok t2 =>
        if !(rustTrim t2 == "") then .ok t2
        else .ok ("[PDF appears to contain no selectable text — likely scanned images: " ++ name ++ "]")
      | .error e2 =>
        .ok ("[PDF extraction failed: " ++ e2 ++ " for file: " ++ name ++ "]")

end Extract

/-! ### Concrete inputs used in counterexamples and witnesses -/

/-- 399 ASCII `'a'`s followed by a 2-byte `'é'`: its trimmed form is 401 bytes
long and byte 400 falls inside the encoding of `'é'`. -/
def poisonContent : String := ⟨List.replicate 399 'a' ++ ['é']⟩

/-- 10001 ASCII `'a'`s: over the 10000-byte truncation threshold. -/
def bigA : String := ⟨List.replicate 10001 'a'⟩

/-- 1001 `'é'`s: 1001 chars but 2002 UTF-8 bytes. -/
def eContent : String := ⟨List.replicate 1001 'é'⟩

/-- `k` repetitions of `" w"`. -/
def wGlue : Nat → List Char
  | 0 => []
  | k + 1 => ' ' :: 'w' :: wGlue k

/-- `k + 1` copies of the word `"w"` separated by single spaces. -/
def wContent (k : Nat) : String := ⟨'w' :: wGlue k⟩

/-- A pdf oracle that is never consulted in the construction it is passed to. -/
def pdfO0 : List Nat → Except String String := fun _ => .error "unused"

/-- Projection: the stored content of a successful upload. -/
def uploadedContent (r : RustResult FileInfo × IndexState) : Option String :=
  match r.1 with
  | .ok f => some f.content
  | _ => none

/-- A record whose blank summary triggers the backfill, and whose content
makes `summarize` panic (399 `'a'`s then `'é'`). -/
def poisonRec : FileInfo := ⟨"P", "p", "txt", 401, "d", poisonContent, true, "", none⟩

/-- An ordinary record with a non-blank summary. -/
def targetRec : FileInfo := ⟨"T", "t", "txt", 3, "d", "abc", true, "s", none⟩

/-- A record with a blank summary but harmless ASCII content: reading it
backfills (and persists) a freshly synthesized summary. -/
def blankRec : FileInfo := ⟨"A", "n", "txt", 5, "d", "hello", true, "", none⟩

/-- A fully healthy record used in witnesses. -/
def goodRec : FileInfo := ⟨"G", "g", "txt", 2, "d", "hi", true, "ok", none⟩

/-- How a record read back by `list_files` relates to the stored one: every
field except the summary is unchanged, and the summary is either kept
(non-blank) or replaced by the output of `summarize` (blank). -/
def SameRec (f f' : FileInfo) : Prop :=
  f'.id = f.id ∧ f'.name = f.name ∧ f'.file_type = f.file_type ∧
  f'.size = f.size ∧ f'.upload_date = f.upload_date ∧ f'.content = f.content ∧
  f'.is_context_enabled = f.is_context_enabled ∧
  f'.conversation_id = f.conversation_id ∧
  (FileStorage.blankB f.summary = true →
    FileStorage.summarize f.name f.file_type f.size f.content = some f'.summary) ∧
  (FileStorage.blankB f.summary = false → f'.summary = f.summary)

/-! ### Lemmas about the chunker loop -/

lemma isWs_w : isWs 'w' = false := by decide

lemma isWs_space : isWs ' ' = true := by decide

/-- Whenever more than `CHUNK_SIZE` words are in play, each iteration of the
chunker loop re-enters the loop: the advanced start `end - 200` never equals
`end` (which is at least 1500) and never reaches `words.length`. -/
lemma chunk_loop_none (fuel : Nat) :
    ∀ (words : List String) (fn : String) (start num : Nat) (acc : List String),
      1500 < words.length → start < words.length →
      FileStorage.chunk_loop fuel words fn start num acc = none := by
  induction fuel with
  | zero => intro words fn start num acc _ _; rfl
  | succ n ih =>
    intro words fn start num acc hlen hstart
    have he1 : 1500 ≤ Nat.min (start + 1500) words.length :=
      Nat.le_min.mpr ⟨by omega, by omega⟩
    have he2 : Nat.min (start + 1500) words.length ≤ words.length :=
      Nat.min_le_right _ _
    simp only [FileStorage.chunk_loop, if_pos hstart]
    rw [if_neg (by omega :
      ¬(Nat.min (start + 1500) words.length - 200 = Nat.min (start + 1500) words.length))]
    exact ih words fn _ _ _ hlen (by omega)

lemma splitWsAux_wGlue (k : Nat) :
    ∀ cur : List Char, cur.isEmpty = false →
      (splitWsAux (wGlue k) cur).length = k + 1 := by
  induction k with
  | zero => intro cur h; simp [wGlue, splitWsAux, h]
  | succ n ih =>
    intro cur h
    show (splitWsAux (' ' :: 'w' :: wGlue n) cur).length = n + 1 + 1
    rw [splitWsAux, if_pos isWs_space]
    rw [if_neg (by simp [h])]
    rw [splitWsAux, if_neg (by simp [isWs_w])]
    simp only [List.length_cons]
    rw [ih ['w'] rfl]

lemma wContent_words (k : Nat) : (split_whitespace (wContent k)).length = k + 1 := by
  show (splitWsAux ('w' :: wGlue k) []).length = k + 1
  rw [splitWsAux, if_neg (by simp [isWs_w])]
  exact splitWsAux_wGlue k ['w'] rfl

/-- Claim C2: the specification says the chunker advances `start = end −
overlap` and "stops when `start` does not advance", so that no input loops
forever.  The code's guard is `if start == end break`, which never fires
(inside the loop `end ≥ 1500`, so `end − 200 ≠ end`), and `start' = end − 200
< words.length` keeps the `while` condition true: for every input with more
than 1500 words the loop never exits, whatever fuel it is given. -/
theorem c2_chunker_never_terminates_beyond_window (fuel : Nat)
    (filename content : String)
    (h : 1500 < (split_whitespace content).length) :
    FileStorage.create_smart_chunks_fuel fuel filename content = none := by
  simp only [FileStorage.create_smart_chunks_fuel]
  rw [if_neg (by omega)]
  exact chunk_loop_none fuel _ filename 0 1 [] h (by omega)

theorem c2_witness :
    FileStorage.create_smart_chunks_fuel 5 "doc" (wContent 1500) = none :=
  c2_chunker_never_terminates_beyond_window 5 "doc" (wContent 1500)
    (by rw [wContent_words]; omega)

/-- Claim C4: the specification's chunk-structure properties (coverage,
window/overlap sizes, part labels) presuppose that the chunker returns a
chunk list for content of more than 1500 words; on a concrete 1600-word
input the loop never exits, for any amount of fuel, so no chunk list with
those properties is ever produced. -/
theorem c4_chunker_produces_no_chunks_on_1600_words (fuel : Nat) :
    FileStorage.create_smart_chunks_fuel fuel "doc" (wContent 1599) = none := by
  have h : 1500 < (split_whitespace (wContent 1599)).length := by
    rw [wContent_words]; omega
  simp only [FileStorage.create_smart_chunks_fuel]
  rw [if_neg (by omega)]
  exact chunk_loop_none fuel _ "doc" 0 1 [] h (by omega)

theorem c4_witness :
    FileStorage.create_smart_chunks_fuel 7 "doc" (wContent 1599) = none :=
  c4_chunker_produces_no_chunks_on_1600_words 7

/-! ### Byte-length, slicing and trimming lemmas -/

lemma byteLenL_append (l1 l2 : List Char) :
    byteLenL (l1 ++ l2) = byteLenL l1 + byteLenL l2 := by
  induction l1 with
  | nil => simp [byteLenL]
  | cons c cs ih => simp [byteLenL, ih]; omega

lemma byteLenL_replicate (n : Nat) (c : Char) :
    byteLenL (List.replicate n c) = n * utf8Len c := by
  induction n with
  | zero => simp [byteLenL]
  | succ m ih => rw [List.replicate_succ]; simp [byteLenL, ih]; ring

lemma byteTakeL_zero (l : List Char) : byteTakeL l 0 = some [] := by
  cases l <;> rfl

/-- Slicing a run of 1-byte chars consumes them one byte each. -/
lemma byteTakeL_run (c : Char) (h : utf8Len c = 1) :
    ∀ (n m : Nat), n ≤ m → ∀ l : List Char,
      byteTakeL (List.replicate n c ++ l) m =
        (byteTakeL l (m - n)).map (List.replicate n c ++ ·) := by
  intro n
  induction n with
  | zero =>
    intro m _ l
    simp only [List.replicate, List.nil_append, Nat.sub_zero]
    cases byteTakeL l m <;> simp
  | succ k ih =>
    intro m hm l
    match m, hm with
    | m' + 1, hm =>
      rw [List.replicate_succ, List.cons_append]
      rw [byteTakeL]
      rw [if_pos (by omega)]
      rw [h]
      have : m' + 1 - 1 = m' := by omega
      rw [this, ih m' (by omega) l]
      have harr : m' - k = m' + 1 - (k + 1) := by omega
      rw [← harr]
      cases byteTakeL l (m' - k) <;> simp [List.replicate_succ]

lemma trimL_sand (a : Char) (mid : List Char) (b : Char)
    (ha : isWs a = false) (hb : isWs b = false) :
    trimL (a :: (mid ++ [b])) = a :: (mid ++ [b]) := by
  have h1 : List.dropWhile isWs (a :: (mid ++ [b])) = a :: (mid ++ [b]) := by
    rw [List.dropWhile_cons, ha]; simp
  rw [trimL, h1]
  have h2 : (a :: (mid ++ [b])).reverse = b :: ((a :: mid).reverse) := by
    rw [show a :: (mid ++ [b]) = (a :: mid) ++ [b] from rfl, List.reverse_append]
    rfl
  rw [h2, List.dropWhile_cons, hb]
  simp [List.reverse_append]

lemma utf8Len_a : utf8Len 'a' = 1 := by decide

lemma utf8Len_e : utf8Len 'é' = 2 := by decide

lemma trim_poison : rustTrim poisonContent = poisonContent := by
  show (⟨trimL poisonContent.data⟩ : String) = poisonContent
  have : poisonContent.data = 'a' :: (List.replicate 398 'a' ++ ['é']) := by
    show (List.replicate 399 'a' ++ ['é'] : List Char) = _
    rw [List.replicate_succ]; rfl
  rw [this, trimL_sand 'a' (List.replicate 398 'a') 'é' (by decide) (by decide)]
  rw [← this]

lemma byteLen_poison : byteLen poisonContent = 401 := by
  show byteLenL (List.replicate 399 'a' ++ ['é']) = 401
  rw [byteLenL_append, byteLenL_replicate, utf8Len_a]
  decide

lemma byteTake_poison : byteTake poisonContent 400 = none := by
  show (byteTakeL (List.replicate 399 'a' ++ ['é']) 400).map _ = none
  rw [byteTakeL_run 'a' utf8Len_a 399 400 (by omega) ['é']]
  decide

/-- `summarize` panics on `poisonContent`: the trimmed snippet is 401 bytes
and `&snippet[..400]` cuts the two-byte `'é'` in half. -/
lemma summarize_poison (name ftype : String) (sz : Nat) :
    FileStorage.summarize name ftype sz poisonContent = none := by
  simp only [FileStorage.summarize, trim_poison, byteLen_poison]
  rw [if_pos (by omega)]
  rw [byteTake_poison]

/-- Claim C10: the spec implies the byte-index slices at 400 (in `summarize`)
and at 10000 (in `store_file_from_path_robust`) are total — they are not:
on a content of 399 `'a'`s followed by `'é'` the trimmed snippet is 401
bytes long and `&snippet[..400]` cuts the two-byte `'é'` in half, so Rust
panics.  The model returns the panic marker `none`. -/
theorem c10_summarize_panics_at_byte_400_boundary :
    FileStorage.summarize "report.txt" "txt" 401 poisonContent = none :=
  summarize_poison "report.txt" "txt" 401

/-! ### Backfill lemmas -/

lemma blankB_empty : FileStorage.blankB "" = true := by decide

lemma ne_empty_of_not_blank {s : String} (h : FileStorage.blankB s = false) :
    s ≠ "" := by
  intro he; rw [he, blankB_empty] at h; cases h

lemma backfillList_noblank :
    ∀ files : List FileInfo, (∀ f ∈ files, FileStorage.blankB f.summary = false) →
      FileStorage.backfillList files = some (files, false) := by
  intro files
  induction files with
  | nil => intro _; rfl
  | cons f rest ih =>
    intro h
    have hf : FileStorage.blankB f.summary = false := h f (by simp)
    simp only [FileStorage.backfillList, hf]
    rw [ih (fun g hg => h g (by simp [hg]))]
    simp

lemma list_files_noblank (files : List FileInfo)
    (h : ∀ f ∈ files, FileStorage.blankB f.summary = false) :
    FileStorage.list_files (some files) = (.ok files, some files) := by
  simp only [FileStorage.list_files, backfillList_noblank files h]
  simp

lemma summarize_ne_empty {n t : String} {sz : Nat} {c s : String}
    (h : FileStorage.summarize n t sz c = some s) : s ≠ "" := by
  simp only [FileStorage.summarize] at h
  rcases hbt : (if byteLen (rustTrim c) > 400 then byteTake (rustTrim c) 400
      else some (rustTrim c)) with _ | sn
  · rw [hbt] at h; cases h
  · rw [hbt] at h
    simp only [Option.some.injEq] at h
    intro he
    rw [he] at h
    have hl := congrArg String.length h
    simp only [String.length_append] at hl
    have h2 : (" [" : String).length = 2 := rfl
    have h3 : ("" : String).length = 0 := rfl
    omega

lemma forall2_mem_right {α β : Type} {R : α → β → Prop} :
    ∀ {l : List α} {l' : List β}, List.Forall₂ R l l' →
      ∀ {b}, b ∈ l' → ∃ a, a ∈ l ∧ R a b := by
  intro l l' h
  induction h with
  | nil => intro b hb; cases hb
  | cons hr _ ih =>
    intro b hb
    rcases List.mem_cons.mp hb with rfl | hb'
    · exact ⟨_, List.mem_cons_self _ _, hr⟩
    · obtain ⟨a, ha, hra⟩ := ih hb'
      exact ⟨a, List.mem_cons_of_mem _ ha, hra⟩

/-- The backfill loop, when no `summarize` call panics, succeeds and relates
every output record to its input record by `SameRec`. -/
lemma backfill_rel :
    ∀ files : List FileInfo,
      (∀ f ∈ files, FileStorage.blankB f.summary = true →
        FileStorage.summarize f.name f.file_type f.size f.content ≠ none) →
      ∃ fs' ch, FileStorage.backfillList files = some (fs', ch) ∧
        List.Forall₂ SameRec files fs' ∧ (ch = false → fs' = files) := by
  intro files
  induction files with
  | nil => intro _; exact ⟨[], false, rfl, List.Forall₂.nil, fun _ => rfl⟩
  | cons f rest ih =>
    intro h
    obtain ⟨rest', ch, hbf, hrel, hch⟩ :=
      ih (fun g hg => h g (List.mem_cons_of_mem _ hg))
    by_cases hb : FileStorage.blankB f.summary = true
    · have hs := h f (List.mem_cons_self _ _) hb
      rcases hsum : FileStorage.summarize f.name f.file_type f.size f.content with _ | s
      · exact absurd hsum hs
      · refine ⟨{ f with summary := s } :: rest', true, ?_, ?_, ?_⟩
        · simp only [FileStorage.backfillList, hb, hsum, hbf]
          simp
        · exact List.Forall₂.cons
            ⟨rfl, rfl, rfl, rfl, rfl, rfl, rfl, rfl,
              fun _ => by rw [hsum], fun hf => absurd hb (by simp [hf])⟩ hrel
        · intro hc; cases hc
    · have hb' : FileStorage.blankB f.summary = false := by
        revert hb; cases FileStorage.blankB f.summary <;> simp
      refine ⟨f :: rest', ch, ?_, ?_, ?_⟩
      · simp only [FileStorage.backfillList, hb', hbf]
        simp
      · exact List.Forall₂.cons
          ⟨rfl, rfl, rfl, rfl, rfl, rfl, rfl, rfl,
            fun hbt => absurd hbt (by simp [hb']), fun _ => rfl⟩ hrel
      · intro hc; rw [hch hc]

/-- Claim C6 is falsified as stated: on a catalog whose single record has a
blank summary and `poisonContent` as content, the self-healing read panics
inside `summarize` (byte 400 of the snippet is not a char boundary) instead
of returning a backfilled list. -/
theorem c6_list_files_panics_on_boundary_content :
    FileStorage.list_files (some [poisonRec]) = (.panicked, some [poisonRec]) := by
  have h1 : FileStorage.backfillList [poisonRec] = none := by
    have hb : FileStorage.blankB poisonRec.summary = true := by decide
    have hc : poisonRec.content = poisonContent := rfl
    simp only [FileStorage.backfillList, hb, hc, summarize_poison]
    simp
  simp only [FileStorage.list_files, h1]

/-- Claim C6 (amended): provided no blank-summary record's content makes
`summarize` panic (its 400-byte snippet cut falls on a char boundary),
`list_files` synthesizes a summary for every record whose stored summary is
blank, persists the backfilled index, and returns it: every returned record
has a non-empty summary and the persisted index equals the returned list. -/
theorem c6_list_files_backfills_summaries (files : List FileInfo)
    (h : ∀ f ∈ files, FileStorage.blankB f.summary = true →
      FileStorage.summarize f.name f.file_type f.size f.content ≠ none) :
    ∃ fs', FileStorage.list_files (some files) = (.ok fs', some fs') ∧
      ∀ f' ∈ fs', f'.summary ≠ "" := by
  obtain ⟨fs', ch, hbf, hrel, hch⟩ := backfill_rel files h
  refine ⟨fs', ?_, ?_⟩
  · simp only [FileStorage.list_files, hbf]
    cases ch
    · rw [hch rfl]; simp
    · simp
  · intro f' hf'
    obtain ⟨f, _, hsr⟩ := forall2_mem_right hrel hf'
    obtain ⟨_, _, _, _, _, _, _, _, h9, h10⟩ := hsr
    cases hb : FileStorage.blankB f.summary
    · rw [h10 hb]; exact ne_empty_of_not_blank hb
    · exact summarize_ne_empty (h9 hb)

theorem c6_witness :
    ∃ fs', FileStorage.list_files (some [blankRec, goodRec]) = (.ok fs', some fs') ∧
      ∀ f' ∈ fs', f'.summary ≠ "" :=
  c6_list_files_backfills_summaries [blankRec, goodRec] (by decide)

/-! ### Position lemmas -/

lemma listPosition_none {α : Type} (p : α → Bool) :
    ∀ l : List α, (∀ x ∈ l, p x = false) → listPosition p l = none := by
  intro l
  induction l with
  | nil => intro _; rfl
  | cons x xs ih =>
    intro h
    simp only [listPosition, h x (by simp)]
    rw [ih (fun y hy => h y (by simp [hy]))]
    simp

/-- Claim C8 is falsified as stated: deleting a nonexistent id from a catalog
holding a blank-summary record does fail with not-found, but the `list_files`
call inside `delete_file` has already backfilled the summary and rewritten
the index, so the persisted index differs from the one before the call. -/
theorem c8_delete_missing_rewrites_index :
    (FileStorage.delete_file (some [blankRec]) "missing").1 =
      .error "File not found: missing" ∧
    (FileStorage.delete_file (some [blankRec]) "missing").2 ≠ some [blankRec] := by
  decide

/-- Claim C8 (amended): provided every record's summary is non-blank (so the
self-healing read inside `delete_file` rewrites nothing), deleting an id
absent from the index fails with the not-found error and leaves the persisted
index exactly as it was. -/
theorem c8_delete_missing_not_found_index_unchanged (st : IndexState) (id : String)
    (h1 : ∀ f ∈ idxList st, FileStorage.blankB f.summary = false)
    (h2 : ∀ f ∈ idxList st, f.id ≠ id) :
    FileStorage.delete_file st id = (.error ("File not found: " ++ id), st) := by
  cases st with
  | none =>
    simp only [FileStorage.delete_file, FileStorage.list_files, listPosition]
  | some files =>
    have hl := list_files_noblank files h1
    have hpos : listPosition (fun f => f.id == id) files = none :=
      listPosition_none _ files (fun f hf => by simpa using h2 f hf)
    simp only [FileStorage.delete_file, hl, hpos]

theorem c8_witness :
    FileStorage.delete_file (some [goodRec]) "missing" =
      (.error "File not found: missing", some [goodRec]) :=
  c8_delete_missing_not_found_index_unchanged (some [goodRec]) "missing"
    (by decide) (by decide)

lemma listPosition_lt_length {α : Type} (p : α → Bool) :
    ∀ (l : List α) (i : Nat), listPosition p l = some i → i < l.length := by
  intro l
  induction l with
  | nil => intro i h; cases h
  | cons x xs ih =>
    intro i h
    simp only [listPosition] at h
    by_cases hx : p x = true
    · rw [if_pos hx] at h
      cases h
      simp
    · rw [if_neg hx] at h
      rcases hmap : listPosition p xs with _ | j
      · rw [hmap] at h; cases h
      · rw [hmap] at h
        simp only [Option.map_some'] at h
        cases h
        have := ih j hmap
        simp
        omega

lemma listPosition_getD {α : Type} (p : α → Bool) (d : α) :
    ∀ (l : List α) (i : Nat), listPosition p l = some i → p (l.getD i d) = true := by
  intro l
  induction l with
  | nil => intro i h; cases h
  | cons x xs ih =>
    intro i h
    simp only [listPosition] at h
    by_cases hx : p x = true
    · rw [if_pos hx] at h; cases h; exact hx
    · rw [if_neg hx] at h
      rcases hmap : listPosition p xs with _ | j
      · rw [hmap] at h; cases h
      · rw [hmap] at h
        simp only [Option.map_some'] at h
        cases h
        exact ih j hmap

lemma listPosition_forall2 {α β : Type} {R : α → β → Prop}
    {p : α → Bool} {q : β → Bool} (hpq : ∀ a b, R a b → q b = p a) :
    ∀ {l : List α} {l' : List β}, List.Forall₂ R l l' →
      listPosition q l' = listPosition p l := by
  intro l l' h
  induction h with
  | nil => rfl
  | cons hr _ ih => simp only [listPosition, hpq _ _ hr, ih]

lemma listPosition_set {α : Type} (p : α → Bool) :
    ∀ (l : List α) (i : Nat) (b : α),
      listPosition p l = some i → p b = true →
      listPosition p (l.set i b) = some i := by
  intro l
  induction l with
  | nil => intro i b h; cases h
  | cons x xs ih =>
    intro i b h hb
    simp only [listPosition] at h
    by_cases hx : p x = true
    · rw [if_pos hx] at h
      cases h
      simp [List.set, listPosition, hb]
    · rw [if_neg hx] at h
      rcases hmap : listPosition p xs with _ | j
      · rw [hmap] at h; cases h
      · rw [hmap] at h
        simp only [Option.map_some'] at h
        cases h
        show listPosition p (x :: xs.set j b) = some (j + 1)
        simp only [listPosition, if_neg hx]
        rw [ih j b hmap hb]
        rfl

lemma forall2_getD {α β : Type} {R : α → β → Prop} (d : α) (d' : β) :
    ∀ {l : List α} {l' : List β}, List.Forall₂ R l l' →
      ∀ i, i < l.length → R (l.getD i d) (l'.getD i d') := by
  intro l l' h
  induction h with
  | nil => intro i hi; simp at hi
  | cons hr _ ih =>
    intro i hi
    cases i with
    | zero => exact hr
    | succ n => exact ih n (by simp at hi; omega)

lemma getD_set_self {α : Type} (d : α) :
    ∀ (l : List α) (i : Nat) (b : α), i < l.length → (l.set i b).getD i d = b := by
  intro l
  induction l with
  | nil => intro i b hi; simp at hi
  | cons x xs ih =>
    intro i b hi
    cases i with
    | zero => rfl
    | succ n => exact ih n b (by simp at hi; omega)

/-- Transfer the no-panic hypothesis across a backfill round: every record
read back has the same name/type/size/content as its stored original. -/
lemma nopanic_transfer {l l' : List FileInfo} (hrel : List.Forall₂ SameRec l l')
    (h : ∀ f ∈ l, FileStorage.blankB f.summary = true →
      FileStorage.summarize f.name f.file_type f.size f.content ≠ none) :
    ∀ g ∈ l', FileStorage.blankB g.summary = true →
      FileStorage.summarize g.name g.file_type g.size g.content ≠ none := by
  intro g hg hbg
  obtain ⟨a, ha, hsr⟩ := forall2_mem_right hrel hg
  obtain ⟨_, hn, hft, hsz, _, hc, _, _, h9, h10⟩ := hsr
  rw [hn, hft, hsz, hc]
  cases hb : FileStorage.blankB a.summary
  · rw [h10 hb, hb] at hbg
    cases hbg
  · exact h a ha hb

set_option maxRecDepth 10000 in
/-- Claim C9 is falsified as stated: with the target record present but a
second record whose blank summary and boundary-straddling content make the
self-healing read panic, `toggle_context` on the present id panics instead
of returning the flipped record. -/
theorem c9_toggle_panics_on_poisoned_index :
    FileStorage.toggle_context (some [targetRec, poisonRec]) "T" =
      (.panicked, some [targetRec, poisonRec]) := by
  decide

/-- Claim C9 (amended): provided no blank-summary record's content makes the
summary backfill inside the reads panic, toggling a present id twice returns
`is_context_enabled` to its original value, each call returns the record with
the flag flipped relative to the state it read, and the persisted record ends
with its original flag. -/
theorem c9_toggle_twice_restores_flag (files : List FileInfo) (id : String) (i : Nat)
    (h : ∀ f ∈ files, FileStorage.blankB f.summary = true →
      FileStorage.summarize f.name f.file_type f.size f.content ≠ none)
    (hpos : listPosition (fun f => f.id == id) files = some i) :
    ∃ f1 st1 f2 st2,
      FileStorage.toggle_context (some files) id = (.ok f1, st1) ∧
      FileStorage.toggle_context st1 id = (.ok f2, st2) ∧
      f1.is_context_enabled = !(files.getD i noFile).is_context_enabled ∧
      f2.is_context_enabled = (files.getD i noFile).is_context_enabled ∧
      ∃ files2, st2 = some files2 ∧
        (files2.getD i noFile).is_context_enabled =
          (files.getD i noFile).is_context_enabled := by
  obtain ⟨fs1, ch1, hbf1, hrel1, _⟩ := backfill_rel files h
  have hi : i < files.length := listPosition_lt_length _ files i hpos
  have hlen1 : files.length = fs1.length := hrel1.length_eq
  have hi1 : i < fs1.length := by omega
  have hpos1 : listPosition (fun f => f.id == id) fs1 = some i := by
    rw [listPosition_forall2 (fun a b hab => by rw [hab.1]) hrel1]
    exact hpos
  have hlist1 : FileStorage.list_files (some files) =
      (.ok fs1, if ch1 then some fs1 else some files) := by
    simp only [FileStorage.list_files, hbf1]
  set f := fs1.getD i noFile with hf
  set f' : FileInfo := { f with is_context_enabled := !f.is_context_enabled } with hf'
  have htog1 : FileStorage.toggle_context (some files) id =
      (.ok f', some (fs1.set i f')) := by
    simp only [FileStorage.toggle_context, hlist1, hpos1]
  have hfi : SameRec (files.getD i noFile) f := forall2_getD noFile noFile hrel1 i hi
  have hflagf : f.is_context_enabled = (files.getD i noFile).is_context_enabled :=
    hfi.2.2.2.2.2.2.1
  -- the no-panic hypothesis survives into the state written by the first call
  have hmemf : f ∈ fs1 := by
    rw [hf, List.getD_eq_getElem fs1 noFile hi1]
    exact List.getElem_mem hi1
  have h1 : ∀ g ∈ fs1.set i f', FileStorage.blankB g.summary = true →
      FileStorage.summarize g.name g.file_type g.size g.content ≠ none := by
    intro g hg hbg
    rcases List.mem_or_eq_of_mem_set hg with hg' | rfl
    · exact nopanic_transfer hrel1 h g hg' hbg
    · exact nopanic_transfer hrel1 h f hmemf hbg
  obtain ⟨fs2, ch2, hbf2, hrel2, _⟩ := backfill_rel (fs1.set i f') h1
  have hlen2 : (fs1.set i f').length = fs2.length := hrel2.length_eq
  have hi2 : i < fs2.length := by
    rw [← hlen2, List.length_set]; omega
  have hpf' : (fun g : FileInfo => g.id == id) f' = true :=
    listPosition_getD _ noFile fs1 i hpos1
  have hposset : listPosition (fun g => g.id == id) (fs1.set i f') = some i :=
    listPosition_set _ fs1 i f' hpos1 hpf'
  have hpos2 : listPosition (fun g => g.id == id) fs2 = some i := by
    rw [listPosition_forall2 (fun a b hab => by rw [hab.1]) hrel2]
    exact hposset
  have hlist2 : FileStorage.list_files (some (fs1.set i f')) =
      (.ok fs2, if ch2 then some fs2 else some (fs1.set i f')) := by
    simp only [FileStorage.list_files, hbf2]
  set g2 := fs2.getD i noFile with hg2
  set f2 : FileInfo := { g2 with is_context_enabled := !g2.is_context_enabled } with hf2
  have htog2 : FileStorage.toggle_context (some (fs1.set i f')) id =
      (.ok f2, some (fs2.set i f2)) := by
    simp only [FileStorage.toggle_context, hlist2, hpos2]
  have hgd : SameRec ((fs1.set i f').getD i noFile) g2 :=
    forall2_getD noFile noFile hrel2 i (by rw [List.length_set]; omega)
  have hset : (fs1.set i f').getD i noFile = f' := getD_set_self noFile fs1 i f' hi1
  have hflag2 : g2.is_context_enabled = f'.is_context_enabled := by
    have := hgd.2.2.2.2.2.2.1
    rw [hset] at this
    exact this
  refine ⟨f', some (fs1.set i f'), f2, some (fs2.set i f2), htog1, htog2, ?_, ?_, ?_⟩
  · show (!f.is_context_enabled) = !(files.getD i noFile).is_context_enabled
    rw [hflagf]
  · show (!g2.is_context_enabled) = (files.getD i noFile).is_context_enabled
    rw [hflag2]
    show (!(!f.is_context_enabled)) = _
    rw [Bool.not_not, hflagf]
  · refine ⟨fs2.set i f2, rfl, ?_⟩
    rw [getD_set_self noFile fs2 i f2 hi2]
    show (!g2.is_context_enabled) = _
    rw [hflag2]
    show (!(!f.is_context_enabled)) = _
    rw [Bool.not_not, hflagf]

theorem c9_witness :
    ∃ f1 st1 f2 st2,
      FileStorage.toggle_context (some [goodRec]) "G" = (.ok f1, st1) ∧
      FileStorage.toggle_context st1 "G" = (.ok f2, st2) ∧
      f1.is_context_enabled = !([goodRec].getD 0 noFile).is_context_enabled ∧
      f2.is_context_enabled = ([goodRec].getD 0 noFile).is_context_enabled ∧
      ∃ files2, st2 = some files2 ∧
        (files2.getD 0 noFile).is_context_enabled =
          ([goodRec].getD 0 noFile).is_context_enabled :=
  c9_toggle_twice_restores_flag [goodRec] "G" 0 (by decide) (by decide)

/-! ### Word-count bound: a word needs a char, a separation needs a char -/

lemma splitWsAux_word_bound :
    ∀ (l cur : List Char),
      2 * (splitWsAux l cur).length ≤
        l.length + (match cur with | [] => 1 | _ :: _ => 2) := by
  intro l
  induction l with
  | nil =>
    intro cur
    cases cur with
    | nil => simp [splitWsAux]
    | cons d cur' => simp [splitWsAux]
  | cons c cs ih =>
    intro cur
    by_cases hw : isWs c = true
    · cases cur with
      | nil =>
        show 2 * (splitWsAux (c :: cs) []).length ≤ (c :: cs).length + 1
        have h1 : splitWsAux (c :: cs) [] = splitWsAux cs [] := by
          simp [splitWsAux, hw]
        have h2 : 2 * (splitWsAux cs []).length ≤ cs.length + 1 := ih []
        rw [h1]
        simp only [List.length_cons]
        omega
      | cons d cur' =>
        show 2 * (splitWsAux (c :: cs) (d :: cur')).length ≤ (c :: cs).length + 2
        have h1 : splitWsAux (c :: cs) (d :: cur') =
            (⟨(d :: cur').reverse⟩ : String) :: splitWsAux cs [] := by
          simp [splitWsAux, hw]
        have h2 : 2 * (splitWsAux cs []).length ≤ cs.length + 1 := ih []
        rw [h1]
        simp only [List.length_cons]
        omega
    · have hw' : isWs c = false := by revert hw; cases isWs c <;> simp
      have h1 : splitWsAux (c :: cs) cur = splitWsAux cs (c :: cur) := by
        simp [splitWsAux, hw']
      have h2 : 2 * (splitWsAux cs (c :: cur)).length ≤ cs.length + 2 := ih (c :: cur)
      cases cur with
      | nil =>
        show 2 * (splitWsAux (c :: cs) []).length ≤ (c :: cs).length + 1
        rw [h1]
        simp only [List.length_cons]
        omega
      | cons d cur' =>
        show 2 * (splitWsAux (c :: cs) (d :: cur')).length ≤ (c :: cs).length + 2
        rw [h1]
        simp only [List.length_cons]
        omega

lemma word_count_le (s : String) :
    2 * (split_whitespace s).length ≤ s.length + 1 :=
  splitWsAux_word_bound s.data []

lemma byteLen_eContent : byteLen eContent = 2002 := by
  show byteLenL (List.replicate 1001 'é') = 2002
  rw [byteLenL_replicate, utf8Len_e]

/-- Claim C7 is falsified as stated: `eContent` is 1001 characters (≤ 2000)
and non-empty, yet the branch condition `content.len() > 2000` of
`get_optimized_context` compares BYTES (2002 here), so the record is handed
to the chunker. -/
theorem c7_chunker_branch_on_small_char_count :
    eContent.length = 1001 ∧ eContent ≠ "" ∧
      FileStorage.uses_chunker eContent = true := by
  refine ⟨?_, ?_, ?_⟩
  · show (List.replicate 1001 'é').length = 1001
    exact List.length_replicate 1001 'é'
  · intro h
    have h2 : eContent.data.length = 0 := by rw [h]; rfl
    rw [show eContent.data = List.replicate 1001 'é' from rfl,
      List.length_replicate] at h2
    omega
  · show decide (2000 < byteLen eContent) = true
    rw [byteLen_eContent]
    rfl

/-- Claim C7 (amended): the threshold is 2000 BYTES, not characters.  For a
non-empty re-extracted content of at most 2000 bytes, exactly one block is
emitted and the chunker branch is not taken; and even for content of at most
2000 characters (which can exceed 2000 bytes and so reach the chunker), the
result is still exactly that one block, because at most 1000 whitespace-
separated words fit in 2000 characters and the chunker returns a single
chunk below its 1500-word window. -/
theorem c7_small_content_single_block (fuel : Nat) (name content : String)
    (h1 : content ≠ "") :
    (byteLen content ≤ 2000 →
      FileStorage.process_enabled_file fuel name (.ok content) =
        some ["Document: " ++ name ++ "\nContent:\n" ++ content] ∧
      FileStorage.uses_chunker content = false) ∧
    (content.length ≤ 2000 →
      FileStorage.process_enabled_file fuel name (.ok content) =
        some ["Document: " ++ name ++ "\nContent:\n" ++ content]) := by
  have hc1 : (content == "") = false := by
    simpa using h1
  constructor
  · intro h2
    have hc2 : FileStorage.uses_chunker content = false := by
      simp only [FileStorage.uses_chunker]
      exact decide_eq_false (by omega)
    constructor
    · simp only [FileStorage.process_enabled_file, hc1, hc2]
      simp
    · exact hc2
  · intro h3
    by_cases hb : FileStorage.uses_chunker content = true
    · have hw : (split_whitespace content).length ≤ 1500 := by
        have := word_count_le content
        omega
      simp only [FileStorage.process_enabled_file, hc1, hb]
      simp only [FileStorage.create_smart_chunks_fuel, if_pos hw]
      simp
    · have hc2 : FileStorage.uses_chunker content = false := by
        revert hb; cases FileStorage.uses_chunker content <;> simp
      simp only [FileStorage.process_enabled_file, hc1, hc2]
      simp

theorem c7_witness :
    (byteLen "hi" ≤ 2000 →
      FileStorage.process_enabled_file 0 "doc" (.ok "hi") =
        some ["Document: " ++ "doc" ++ "\nContent:\n" ++ "hi"] ∧
      FileStorage.uses_chunker "hi" = false) ∧
    ("hi".length ≤ 2000 →
      FileStorage.process_enabled_file 0 "doc" (.ok "hi") =
        some ["Document: " ++ "doc" ++ "\nContent:\n" ++ "hi"]) :=
  c7_small_content_single_block 0 "doc" "hi" (by decide)

lemma getElem?_append_left {l1 l2 : List Char} {i : Nat} (h : i < l1.length) :
    (l1 ++ l2)[i]? = l1[i]? := by
  rw [List.getElem?_append, if_pos h]

/-- The "no selectable text" and "extraction failed" placeholders of
`extract.rs` are distinct strings, whatever the file name and error text. -/
lemma placeholders_distinct (name e2 : String) :
    ("[PDF appears to contain no selectable text — likely scanned images: " ++ name ++ "]") ≠
      ("[PDF extraction failed: " ++ e2 ++ " for file: " ++ name ++ "]") := by
  intro heq
  have hb1 : 5 < "[PDF appears to contain no selectable text — likely scanned images: ".data.length := by
    decide
  have hb2 : 5 < "[PDF extraction failed: ".data.length := by decide
  have hd := congrArg (fun s : String => (s.data)[5]?) heq
  have hL : ((("[PDF appears to contain no selectable text — likely scanned images: " ++ name) ++ "]").data)[5]? = some 'a' := by
    rw [String.data_append, String.data_append]
    rw [getElem?_append_left (by rw [List.length_append]; omega)]
    rw [getElem?_append_left hb1]
    rfl
  have hR : ((((("[PDF extraction failed: " ++ e2) ++ " for file: ") ++ name) ++ "]").data)[5]? = some 'e' := by
    rw [String.data_append, String.data_append, String.data_append, String.data_append]
    rw [getElem?_append_left (by rw [List.length_append, List.length_append, List.length_append]; omega)]
    rw [getElem?_append_left (by rw [List.length_append, List.length_append]; omega)]
    rw [getElem?_append_left (by rw [List.length_append]; omega)]
    rw [getElem?_append_left hb2]
    rfl
  simp only at hd
  rw [hL, hR] at hd
  cases hd

/-- Claim C5: the two-phase PDF extraction of `extract.rs` distinguishes three
outcomes.  (1) If phase 1 returns text that is only whitespace, the result is
the "no selectable text" placeholder and does not depend on the path-based
strategy at all (it is not attempted).  (2) If phase 1 errors, the outcome is
decided by the path-based fallback (its non-blank text is returned, blank
text gives the "no selectable text" placeholder).  (3) Only when the fallback
errors too does the result become the distinct "extraction failed"
placeholder carrying the underlying error text. -/
theorem c5_pdf_three_outcomes (pathStr name t t2 e e2 : String)
    (p1 p2 : Except String String) :
    (rustTrim t = "" →
      Extract.extract_pdf_text pathStr name true (.ok t) p1 =
        .ok ("[PDF appears to contain no selectable text — likely scanned images: " ++ name ++ "]") ∧
      Extract.extract_pdf_text pathStr name true (.ok t) p1 =
        Extract.extract_pdf_text pathStr name true (.ok t) p2) ∧
    (Extract.extract_pdf_text pathStr name true (.error e) (.ok t2) =
      if rustTrim t2 = "" then
        .ok ("[PDF appears to contain no selectable text — likely scanned images: " ++ name ++ "]")
      else .ok t2) ∧
    (Extract.extract_pdf_text pathStr name true (.error e) (.error e2) =
      .ok ("[PDF extraction failed: " ++ e2 ++ " for file: " ++ name ++ "]")) ∧
    ("[PDF appears to contain no selectable text — likely scanned images: " ++ name ++ "]" ≠
      "[PDF extraction failed: " ++ e2 ++ " for file: " ++ name ++ "]") := by
  refine ⟨fun ht => ⟨?_, ?_⟩, ?_, ?_, placeholders_distinct name e2⟩
  · simp [Extract.extract_pdf_text, ht]
  · simp [Extract.extract_pdf_text, ht]
  · by_cases h2 : rustTrim t2 = "" <;> simp [Extract.extract_pdf_text, h2]
  · simp [Extract.extract_pdf_text]

theorem c5_witness :
    Extract.extract_pdf_text "x.pdf" "x.pdf" true (.ok " \n") (.ok "ignored") =
      .ok ("[PDF appears to contain no selectable text — likely scanned images: " ++ "x.pdf" ++ "]") ∧
    Extract.extract_pdf_text "x.pdf" "x.pdf" true (.ok " \n") (.ok "ignored") =
      Extract.extract_pdf_text "x.pdf" "x.pdf" true (.ok " \n") (.error "also") ∧
    Extract.extract_pdf_text "x.pdf" "x.pdf" true (.error "e1") (.ok "text") =
      .ok "text" ∧
    Extract.extract_pdf_text "x.pdf" "x.pdf" true (.error "e1") (.error "boom") =
      .ok ("[PDF extraction failed: " ++ "boom" ++ " for file: " ++ "x.pdf" ++ "]") := by
  have h := c5_pdf_three_outcomes "x.pdf" "x.pdf" " \n" "text" "e1" "boom"
    (.ok "ignored") (.error "also")
  obtain ⟨h1, h2, h3, _⟩ := h
  have ht : rustTrim " \n" = "" := by decide
  refine ⟨(h1 ht).1, (h1 ht).2, ?_, h3⟩
  rw [h2]
  rw [if_neg (by decide)]

/-! ### UTF-8 and truncation lemmas for the upload claims -/

lemma utf8Decode_ascii_cons (b : Nat) (rest : List Nat) (h : b < 128) :
    utf8Decode (b :: rest) = (utf8Decode rest).map (Char.ofNat b :: ·) := by
  rw [utf8Decode.eq_def]
  cases rest <;> simp only [if_pos h]

lemma utf8Decode_rep_a :
    ∀ n : Nat, utf8Decode (List.replicate n 97) = some (List.replicate n 'a') := by
  intro n
  induction n with
  | zero => rfl
  | succ m ih =>
    rw [List.replicate_succ]
    rw [utf8Decode_ascii_cons 97 _ (by omega)]
    rw [ih]
    rw [List.replicate_succ]
    rfl

lemma utf8DecodeS_bigA : utf8DecodeS (List.replicate 10001 97) = some bigA := by
  show (utf8Decode (List.replicate 10001 97)).map (⟨·⟩) = some bigA
  rw [utf8Decode_rep_a]
  rfl

lemma byteLen_bigA : byteLen bigA = 10001 := by
  show byteLenL (List.replicate 10001 'a') = 10001
  rw [byteLenL_replicate, utf8Len_a]

lemma trim_bigA : rustTrim bigA = bigA := by
  show (⟨trimL bigA.data⟩ : String) = bigA
  have hsplit : bigA.data = 'a' :: (List.replicate 9999 'a' ++ ['a']) := by
    show (List.replicate 10001 'a' : List Char) = _
    rw [List.replicate_succ, List.replicate_succ']
  rw [hsplit, trimL_sand 'a' (List.replicate 9999 'a') 'a' (by decide) (by decide)]
  rw [← hsplit]

lemma byteTake_rep_a (n m : Nat) (h : m ≤ n) :
    byteTake (⟨List.replicate n 'a'⟩ : String) m = some ⟨List.replicate m 'a'⟩ := by
  show (byteTakeL (List.replicate n 'a') m).map _ = _
  have hsplit : List.replicate n 'a' = List.replicate m 'a' ++ List.replicate (n - m) 'a' := by
    rw [← List.replicate_add]
    congr 1
    omega
  rw [hsplit, byteTakeL_run 'a' utf8Len_a m m (Nat.le_refl m), Nat.sub_self,
    byteTakeL_zero]
  simp

lemma byteTake_bigA (m : Nat) (h : m ≤ 10001) :
    byteTake bigA m = some ⟨List.replicate m 'a'⟩ := by
  show byteTake (⟨List.replicate 10001 'a'⟩ : String) m = _
  exact byteTake_rep_a 10001 m h

lemma summarize_bigA_isSome (n t : String) (sz : Nat) :
    ∃ s, FileStorage.summarize n t sz bigA = some s := by
  simp only [FileStorage.summarize, trim_bigA, byteLen_bigA]
  rw [if_pos (by omega), byteTake_bigA 400 (by omega)]
  exact ⟨_, rfl⟩

/-- `list_files` on a blank-free state returns that state's records. -/
lemma list_files_ok_noblank (st : IndexState)
    (h : ∀ f ∈ idxList st, FileStorage.blankB f.summary = false) :
    ∃ st1, FileStorage.list_files st = (.ok (idxList st), st1) := by
  cases st with
  | none => exact ⟨none, rfl⟩
  | some files => exact ⟨some files, list_files_noblank files h⟩

/-- Claim C1 is falsified as stated for the in-memory upload path:
`upload_file` forwards the extraction result with `?`, so a `.txt` payload
that is not valid UTF-8 makes the upload return an error — no record is
created and the index is untouched. -/
theorem c1_upload_file_errors_on_invalid_utf8 :
    FileStorage.upload_file pdfO0 [255] "a.txt" "id0" "t0" none =
      (.error "stream did not contain valid UTF-8", none) := by
  decide

/-- Claim C1 (amended): only the path-based upload
(`store_file_from_path_robust`) never aborts on extraction failure: whether
the pdf extractor errors or the text decode fails, a record is still created
with empty content and a diagnostic summary, and it is appended to the index
(provided the self-healing read inside it does not rewrite the index, i.e. no
record has a blank summary).  The in-memory `upload_file` instead propagates
extraction failure as an error. -/
theorem c1_robust_upload_never_aborted_by_extraction_failure
    (pdfO : List Nat → Except String String) (bytes : List Nat)
    (filename fid now : String) (st : IndexState)
    (hnb : ∀ f ∈ idxList st, FileStorage.blankB f.summary = false) :
    (∀ e, pdfO bytes = .error e →
      FileStorage.store_file_from_path_robust pdfO bytes filename "pdf" fid now st =
        (.ok ⟨fid, filename, "pdf", bytes.length, now, "", true,
            "PDF document: " ++ filename ++ " [" ++ Nat.repr bytes.length ++
              " bytes] - Content extraction failed: " ++
              ("Failed to extract text from PDF: " ++ e),
            none⟩,
          some (idxList st ++ [⟨fid, filename, "pdf", bytes.length, now, "", true,
            "PDF document: " ++ filename ++ " [" ++ Nat.repr bytes.length ++
              " bytes] - Content extraction failed: " ++
              ("Failed to extract text from PDF: " ++ e),
            none⟩]))) ∧
    (utf8DecodeS bytes = none →
      FileStorage.store_file_from_path_robust pdfO bytes filename "txt" fid now st =
        (.ok ⟨fid, filename, "txt", bytes.length, now, "", true,
            "Text document: " ++ filename ++ " [" ++ Nat.repr bytes.length ++
              " bytes] - Content extraction failed: stream did not contain valid UTF-8",
            none⟩,
          some (idxList st ++ [⟨fid, filename, "txt", bytes.length, now, "", true,
            "Text document: " ++ filename ++ " [" ++ Nat.repr bytes.length ++
              " bytes] - Content extraction failed: stream did not contain valid UTF-8",
            none⟩]))) := by
  obtain ⟨st1, hls⟩ := list_files_ok_noblank st hnb
  constructor
  · intro e he
    have hfs : FileStorage.extract_pdf_text (pdfO bytes) =
        .error ("Failed to extract text from PDF: " ++ e) := by
      rw [he]
      rfl
    simp only [FileStorage.store_file_from_path_robust, hfs, hls]
    simp
  · intro hdec
    simp only [FileStorage.store_file_from_path_robust, hdec, hls]
    simp

theorem c1_witness :
    FileStorage.store_file_from_path_robust (fun _ => .error "boom")
        [255] "f" "pdf" "id" "t" (some [goodRec]) =
      (.ok ⟨"id", "f", "pdf", ([255] : List Nat).length, "t", "", true,
          "PDF document: " ++ "f" ++ " [" ++ Nat.repr ([255] : List Nat).length ++
            " bytes] - Content extraction failed: " ++
            ("Failed to extract text from PDF: " ++ "boom"),
          none⟩,
        some (idxList (some [goodRec]) ++ [⟨"id", "f", "pdf", ([255] : List Nat).length,
          "t", "", true,
          "PDF document: " ++ "f" ++ " [" ++ Nat.repr ([255] : List Nat).length ++
            " bytes] - Content extraction failed: " ++
            ("Failed to extract text from PDF: " ++ "boom"),
          none⟩])) ∧
    FileStorage.store_file_from_path_robust (fun _ => .error "boom")
        [255] "f" "txt" "id" "t" (some [goodRec]) =
      (.ok ⟨"id", "f", "txt", ([255] : List Nat).length, "t", "", true,
          "Text document: " ++ "f" ++ " [" ++ Nat.repr ([255] : List Nat).length ++
            " bytes] - Content extraction failed: stream did not contain valid UTF-8",
          none⟩,
        some (idxList (some [goodRec]) ++ [⟨"id", "f", "txt", ([255] : List Nat).length,
          "t", "", true,
          "Text document: " ++ "f" ++ " [" ++ Nat.repr ([255] : List Nat).length ++
            " bytes] - Content extraction failed: stream did not contain valid UTF-8",
          none⟩])) := by
  have h := c1_robust_upload_never_aborted_by_extraction_failure
    (fun _ => .error "boom") [255] "f" "id" "t" (some [goodRec]) (by decide)
  exact ⟨h.1 "boom" rfl, h.2 (by decide)⟩

/-- Fully symbolic evaluation of `upload_file` on a fresh index for a `.txt`
file whose bytes decode and whose summary computation succeeds. -/
lemma upload_file_txt_ok (pdfO : List Nat → Except String String)
    (bytes : List Nat) (filename fid now text s : String)
    (hft : FileStorage.get_file_type filename = "txt")
    (hdec : utf8DecodeS bytes = some text)
    (hs : FileStorage.summarize filename "txt" bytes.length text = some s) :
    FileStorage.upload_file pdfO bytes filename fid now none =
      (.ok ⟨fid, filename, "txt", bytes.length, now, text, true, s, none⟩,
        some [⟨fid, filename, "txt", bytes.length, now, text, true, s, none⟩]) := by
  have hext : FileStorage.extract_text_content pdfO bytes "txt" = .ok text := by
    simp only [FileStorage.extract_text_content]
    rw [if_pos (by decide)]
    rw [hdec]
  simp only [FileStorage.upload_file, hft, hext, hs]
  simp only [FileStorage.save_file_to_index, FileStorage.list_files, listPosition]
  rfl

/-- Claim C3 is falsified as stated: the in-memory upload path (`upload_file`)
applies no truncation at all — a 10001-character text payload is stored
verbatim, with no truncation marker, even though it exceeds the 10000
threshold. -/
theorem c3_upload_file_does_not_truncate :
    uploadedContent (FileStorage.upload_file pdfO0 (List.replicate 10001 97)
        "a.txt" "id1" "t0" none) = some bigA ∧
      bigA.length = 10001 := by
  constructor
  · obtain ⟨s, hs⟩ := summarize_bigA_isSome "a.txt" "txt" (List.replicate 10001 97).length
    rw [upload_file_txt_ok pdfO0 (List.replicate 10001 97) "a.txt" "id1" "t0" bigA s
      (by decide) utf8DecodeS_bigA hs]
    rfl
  · show (List.replicate 10001 'a').length = 10001
    exact List.length_replicate _ _

/-- Claim C3 (amended): the 10000-threshold truncation is applied only by the
path-based upload (`store_file_from_path_robust`), and it is a BYTE
threshold: extracted text of at most 10000 bytes is stored unmodified, text
over 10000 bytes is cut at byte 10000 (provided that is a char boundary) with
an appended marker stating the total byte length.  The in-memory upload path
stores content unmodified at any length (see the counterexample). -/
theorem c3_robust_truncates_at_10000_bytes
    (pdfO : List Nat → Except String String) (bytes : List Nat)
    (filename fid now : String) (st : IndexState) (text : String)
    (hnb : ∀ f ∈ idxList st, FileStorage.blankB f.summary = false)
    (hdec : utf8DecodeS bytes = some text) :
    (byteLen text ≤ 10000 →
      FileStorage.store_file_from_path_robust pdfO bytes filename "txt" fid now st =
        (.ok ⟨fid, filename, "txt", bytes.length, now, text, true,
            "Text document: " ++ filename ++ " [" ++ Nat.repr bytes.length ++
              " bytes] - Content extracted: " ++ Nat.repr (byteLen text) ++ " chars",
            none⟩,
          some (idxList st ++ [⟨fid, filename, "txt", bytes.length, now, text, true,
            "Text document: " ++ filename ++ " [" ++ Nat.repr bytes.length ++
              " bytes] - Content extracted: " ++ Nat.repr (byteLen text) ++ " chars",
            none⟩]))) ∧
    (∀ p, 10000 < byteLen text → byteTake text 10000 = some p →
      FileStorage.store_file_from_path_robust pdfO bytes filename "txt" fid now st =
        (.ok ⟨fid, filename, "txt", bytes.length, now,
            p ++ "... [Truncated - " ++ Nat.repr (byteLen text) ++ " characters total]",
            true,
            "Text document: " ++ filename ++ " [" ++ Nat.repr bytes.length ++
              " bytes] - Content extracted: " ++
              Nat.repr (byteLen (p ++ "... [Truncated - " ++ Nat.repr (byteLen text) ++
                " characters total]")) ++ " chars",
            none⟩,
          some (idxList st ++ [⟨fid, filename, "txt", bytes.length, now,
            p ++ "... [Truncated - " ++ Nat.repr (byteLen text) ++ " characters total]",
            true,
            "Text document: " ++ filename ++ " [" ++ Nat.repr bytes.length ++
              " bytes] - Content extracted: " ++
              Nat.repr (byteLen (p ++ "... [Truncated - " ++ Nat.repr (byteLen text) ++
                " characters total]")) ++ " chars",
            none⟩]))) := by
  obtain ⟨st1, hls⟩ := list_files_ok_noblank st hnb
  constructor
  · intro hle
    have htr : FileStorage.truncate_for_storage text = some text := by
      simp only [FileStorage.truncate_for_storage]
      rw [if_neg (by omega)]
    simp only [FileStorage.store_file_from_path_robust, hdec, htr, hls]
    simp
  · intro p hgt htake
    have htr : FileStorage.truncate_for_storage text =
        some (p ++ "... [Truncated - " ++ Nat.repr (byteLen text) ++
          " characters total]") := by
      simp only [FileStorage.truncate_for_storage]
      rw [if_pos (by omega), htake]
      rfl
    simp only [FileStorage.store_file_from_path_robust, hdec, htr, hls]
    simp

theorem c3_witness :
    FileStorage.store_file_from_path_robust pdfO0 [104, 105] "f" "txt" "id" "t" none =
      (.ok ⟨"id", "f", "txt", ([104, 105] : List Nat).length, "t", "hi", true,
          "Text document: " ++ "f" ++ " [" ++ Nat.repr ([104, 105] : List Nat).length ++
            " bytes] - Content extracted: " ++ Nat.repr (byteLen "hi") ++ " chars",
          none⟩,
        some (idxList none ++ [⟨"id", "f", "txt", ([104, 105] : List Nat).length, "t",
          "hi", true,
          "Text document: " ++ "f" ++ " [" ++ Nat.repr ([104, 105] : List Nat).length ++
            " bytes] - Content extracted: " ++ Nat.repr (byteLen "hi") ++ " chars",
          none⟩])) ∧
    FileStorage.store_file_from_path_robust pdfO0 (List.replicate 10001 97)
        "f" "txt" "id" "t" none =
      (.ok ⟨"id", "f", "txt", (List.replicate 10001 (97 : Nat)).length, "t",
          (⟨List.replicate 10000 'a'⟩ : String) ++ "... [Truncated - " ++
            Nat.repr (byteLen bigA) ++ " characters total]",
          true,
          "Text document: " ++ "f" ++ " [" ++
            Nat.repr (List.replicate 10001 (97 : Nat)).length ++
            " bytes] - Content extracted: " ++
            Nat.repr (byteLen ((⟨List.replicate 10000 'a'⟩ : String) ++
              "... [Truncated - " ++ Nat.repr (byteLen bigA) ++
              " characters total]")) ++ " chars",
          none⟩,
        some (idxList none ++ [⟨"id", "f", "txt",
          (List.replicate 10001 (97 : Nat)).length, "t",
          (⟨List.replicate 10000 'a'⟩ : String) ++ "... [Truncated - " ++
            Nat.repr (byteLen bigA) ++ " characters total]",
          true,
          "Text document: " ++ "f" ++ " [" ++
            Nat.repr (List.replicate 10001 (97 : Nat)).length ++
            " bytes] - Content extracted: " ++
            Nat.repr (byteLen ((⟨List.replicate 10000 'a'⟩ : String) ++
              "... [Truncated - " ++ Nat.repr (byteLen bigA) ++
              " characters total]")) ++ " chars",
          none⟩])) := by
  have h1 := c3_robust_truncates_at_10000_bytes pdfO0 [104, 105] "f" "id" "t" none "hi"
    (by decide) (by decide)
  have h2 := c3_robust_truncates_at_10000_bytes pdfO0 (List.replicate 10001 97)
    "f" "id" "t" none bigA (by decide) utf8DecodeS_bigA
  exact ⟨h1.1 (by decide),
    h2.2 ⟨List.replicate 10000 'a'⟩ (by rw [byteLen_bigA]; omega)
      (byteTake_bigA 10000 (by omega))⟩
